import Mathlib

/-!
Shallow embedding of the demand-forecasting pipeline of
`ai-service/models/demand_predictor.py` and proofs about it.

Modelling conventions: Python ints are `Int`, Python floats are `Rat`
(exact arithmetic), dicts with optional keys are structures with `Option`
fields, and a raised exception is `Option.none`.  Python `sorted` /
`list.sort` (Timsort, stable) is modelled by a stable insertion sort.
The scikit-learn regressor is not embeddable, so the ML items enter the
pipeline as an oracle parameter; everything downstream of it is embedded
from the source.
-/

set_option linter.unusedVariables false

set_option maxRecDepth 20000

set_option allowUnsafeReducibility true

attribute [local semireducible] Rat.mul Rat.add Rat.sub Rat.inv Rat.ofScientific

namespace DemandPred

/-- Truncation toward zero: the semantics of Python `int()` on a number. -/
def truncQ (q : ℚ) : ℤ :=
if q < 0 then Int.ceil q else Int.floor q

/-- Truthiness of an optional number: the semantics of Python `if budget:`
for `budget : Optional[float]` (`None` and `0.0` are falsy). -/
def truthy : Option ℚ → Bool
| none => false
| some b => b != 0

/-- The prediction dict built by the pipeline.  The three budget fields are
absent (`none`) until `_apply_budget_constraints` or the fallback sets them. -/
structure ItemForecast where
  item_name : String
  predicted_demand_30d : ℤ
  predicted_demand_60d : ℤ
  predicted_demand_90d : ℤ
  avg_daily_demand : ℚ
  confidence : ℚ
  reason : String
  investment_required : Option ℚ := none
  expected_profit : Option ℚ := none
  roi_percentage : Option ℚ := none
deriving Repr, DecidableEq

/-- Reading `pred['investment_required']` after it has been set; `getD 0`
matches `pred.get('investment_required', 0)` used by the composer. -/
def invOf (p : ItemForecast) : ℚ := p.investment_required.getD 0

/-- Step 1 of `_apply_budget_constraints` on one forecast:
`investment_required = predicted_demand_90d * 100`,
`expected_profit = investment_required * 0.3`,
`roi_percentage = (expected_profit / investment_required) * 100`.
The division raises `ZeroDivisionError` when `investment_required` is `0`,
modelled as `none`. -/
def budgetFields (p : ItemForecast) : Option ItemForecast :=
  let inv : ℚ := (p.predicted_demand_90d : ℚ) * 100
  let profit : ℚ := inv * (3 / 10)
  if inv = 0 then none
  else some { p with investment_required := some inv,
                     expected_profit := some profit,
                     roi_percentage := some (profit / inv * 100) }

/-- Step 1 of `_apply_budget_constraints` over the whole list: the `for`
loop mutates every forecast in order, and the first `ZeroDivisionError`
aborts the whole call. -/
def setBudgetFields : List ItemForecast → Option (List ItemForecast)
| [] => some []
| p :: ps => do
  let q ← budgetFields p
  let qs ← setBudgetFields ps
  return q :: qs

/-- Stable descending insertion: `a` goes after every element whose key is
greater than or equal to its own, as in Python's stable `sort(reverse=True)`. -/
def insertDesc {α : Type} (key : α → ℚ) (a : α) : List α → List α
| [] => [a]
| b :: bs => if key b < key a then a :: b :: bs else b :: insertDesc key a bs

/-- Stable descending sort by `key`, modelling
`predictions.sort(key=..., reverse=True)` and `sorted(..., reverse=True)`. -/
def sortDesc {α : Type} (key : α → ℚ) (l : List α) : List α :=
  l.foldl (fun acc x => insertDesc key x acc) []

/-- Partial allocation: `pred.copy()` with `investment_required` set to the
remaining budget, `predicted_demand_90d` to `int(remaining_budget / 100)` and
`expected_profit` to `remaining_budget * 0.3`; every other field is kept. -/
def clipToBudget (p : ItemForecast) (remaining : ℚ) : ItemForecast :=
  { p with investment_required := some remaining,
           predicted_demand_90d := truncQ (remaining / 100),
           expected_profit := some (remaining * (3 / 10)) }

/-- The greedy packing loop of `_apply_budget_constraints`: accept an item
while it fits, otherwise (when some budget remains) emit at most one partial
item and stop; when the budget is exactly exhausted the item is skipped and
the loop continues. -/
def allocLoop (budget : ℚ) : ℚ → List ItemForecast → List ItemForecast
| _, [] => []
| total, p :: rest =>
  if total + invOf p ≤ budget then
    p :: allocLoop budget (total + invOf p) rest
  else if total < budget then
    if 1000 ≤ budget - total then [clipToBudget p (budget - total)] else []
  else allocLoop budget total rest

/-- Sort key used by `_apply_budget_constraints`. -/
def roiKey (p : ItemForecast) : ℚ := p.roi_percentage.getD 0

/-- Model of `_apply_budget_constraints`: set the ROI fields (which may raise,
hence `Option`), sort by `roi_percentage` descending (stable), then pack. -/
def apply_budget_constraints (predictions : List ItemForecast) (budget : ℚ) :
    Option (List ItemForecast) := do
  let l1 ← setBudgetFields predictions
  let l2 := sortDesc roiKey l1
  return allocLoop budget 0 l2

/-- Sum of the `investment_required` fields of a list of forecasts. -/
def sumInv (l : List ItemForecast) : ℚ := (l.map invOf).sum

def default_items : List String :=
  ["Coffee Beans (Premium)", "Hand Sanitizer Bottles", "Reusable Shopping Bags",
   "Energy-efficient Light Bulbs", "Organic Tea Collection"]

/-- Fallback confidence ramp: `max(0.4, 0.6 - i * 0.1)`. -/
def fallbackConfidence (i : ℕ) : ℚ := max (4 / 10) (6 / 10 - (i : ℚ) * (1 / 10))

def fallbackReason : String := "Based on industry trends and market analysis"

/-- One fallback forecast: base demand `50 + i * 25`, horizons 1x/2x/3x, and,
when a budget was supplied, the 150-cost / 25%-margin fields. -/
def fallbackItem (hasBudget : Bool) (i : ℕ) (name : String) : ItemForecast :=
  let base : ℤ := 50 + (i : ℤ) * 25
  { item_name := name,
    predicted_demand_30d := base,
    predicted_demand_60d := base * 2,
    predicted_demand_90d := base * 3,
    avg_daily_demand := (base : ℚ) / 30,
    confidence := fallbackConfidence i,
    reason := fallbackReason,
    investment_required := if hasBudget then some ((base : ℚ) * 150) else none,
    expected_profit := if hasBudget then some ((base : ℚ) * 150 * (1 / 4)) else none,
    roi_percentage := if hasBudget then some 25 else none }

/-- The five fallback forecasts, in catalog order. -/
def fallbackBase (hasBudget : Bool) : List ItemForecast :=
  default_items.enum.map fun pr => fallbackItem hasBudget pr.1 pr.2

/-- Model of `_fallback_prediction(budget, days_ahead)`.  Note that
`days_ahead` is never read, and that when the budget is truthy the items are
re-processed by `_apply_budget_constraints`. -/
def fallback_prediction (budget : Option ℚ) (days_ahead : ℕ) :
    Option (List ItemForecast) :=
  let predictions := fallbackBase (truthy budget)
  if truthy budget then apply_budget_constraints predictions (budget.getD 0)
  else some predictions

/-- Model of `_apply_seasonal_adjustments`: scale the 90-day figure by 1.3 in
November and December and by 0.9 in June, July and August. -/
def apply_seasonal_adjustments (month : ℕ) (predictions : List ItemForecast) :
    List ItemForecast :=
  predictions.map fun p =>
    if month = 11 ∨ month = 12 then
      { p with predicted_demand_90d := truncQ ((p.predicted_demand_90d : ℚ) * (13 / 10)) }
    else if month = 6 ∨ month = 7 ∨ month = 8 then
      { p with predicted_demand_90d := truncQ ((p.predicted_demand_90d : ℚ) * (9 / 10)) }
    else p

/-- The body of `predict` inside the `try`.  `mlItems` is the oracle output of
`_ml_prediction` (which catches its own exceptions and returns a plain list),
`salesLen` is `len(sales_data)` and `month` the current wall-clock month. -/
def predictBody (mlItems : List ItemForecast) (salesLen : ℕ) (month : ℕ)
    (budget : Option ℚ) (days_ahead : ℕ) : Option (List ItemForecast) :=
  if salesLen < 10 then fallback_prediction budget days_ahead
  else
    let predictions := apply_seasonal_adjustments month mlItems
    if truthy budget then apply_budget_constraints predictions (budget.getD 0)
    else some predictions

/-- Public `predict`: the whole body runs under `try`, and any exception is
converted into `_fallback_prediction(budget, days_ahead)`.  An exception
raised by the handler itself would still escape, hence the `Option` result. -/
def predict (mlItems : List ItemForecast) (salesLen : ℕ) (month : ℕ)
    (budget : Option ℚ) (days_ahead : ℕ) : Option (List ItemForecast) :=
  match predictBody mlItems salesLen month budget days_ahead with
  | some l => some l
  | none => fallback_prediction budget days_ahead

/-- Confidence computation on the ML path:
`max(0.3, 1.0 - mae / np.mean(y_test))`. -/
def mlConfidence (mae meanTest : ℚ) : ℚ := max (3 / 10) (1 - mae / meanTest)

/-- Record types produced by `generate_recommendations`; absent dict keys are
`none` and each record carries its `'type'` tag in `rtype`. -/
structure Recommendation where
  rtype : String
  title : String
  description : String
  items : List ItemForecast := []
  total_investment : Option ℚ := none
  expected_profit : Option ℚ := none
  roi : Option ℚ := none
  priority : Option String := none
  action : Option String := none
deriving Repr, DecidableEq

def highPriority : String := "high"

def seasonalAction : String := "Consider bulk purchasing for high-demand items"

/-- Model of `generate_recommendations(predictions, budget)` with the current
wall-clock month made explicit.  An empty predictions list returns `[]` at
once; otherwise the top three forecasts by confidence feed one main
recommendation, and a `"seasonal_prep"` record is appended in October,
November and December.  The numeric interpolation of the budget into the
title string is elided. -/
def generate_recommendations (month : ℕ) (predictions : List ItemForecast)
    (budget : Option ℚ) : List Recommendation :=
  if predictions = [] then []
  else
    let top_items := (sortDesc (fun p => p.confidence) predictions).take 3
    let main : List Recommendation :=
      if truthy budget then
        let needed := (top_items.map invOf).sum
        if 0 < needed then
          [{ rtype := "budget_allocation",
             title := "Optimal Budget Allocation for Rs",
             description := "Focus on top high-confidence items for maximum ROI",
             items := top_items,
             total_investment := some needed,
             expected_profit := some (top_items.map fun p => p.expected_profit.getD 0).sum,
             roi := some ((top_items.map fun p => p.roi_percentage.getD 0).sum / (top_items.length : ℚ)) }]
        else []
      else
        [{ rtype := "stock_recommendation",
           title := "Recommended Stock Levels",
           description := "Based on predicted demand, stock these items for the next 90 days",
           items := top_items,
           priority := some highPriority }]
    main ++
      (if month = 10 ∨ month = 11 ∨ month = 12 then
        [{ rtype := "seasonal_prep",
           title := "Holiday Season Preparation",
           description := "Increase stock by 30-40% for holiday demand",
           action := some seasonalAction }]
       else [])

/-- Interface to the numeric-library primitives used by `_get_sales_data`
(`numpy.random` and `sin`), abstracted: the pseudo-random source is a global
state of type `ℕ`; `seed` is `np.random.seed(company_id)`, which replaces the
global state; each draw consumes and returns the state.  `sinFactor d` stands
for the deterministic seasonal factor `1 + 0.2 * sin(2 * pi * d / 365)` at
day-of-year `d`. -/
structure RandomLib where
  seed : ℤ → ℕ
  poisson10 : ℕ → ℤ × ℕ
  normalJitter : ℕ → ℚ × ℕ
  priceUniform : ℕ → ℚ × ℕ
  sinFactor : ℕ → ℚ

structure Date where
  year : ℕ
  month : ℕ
  day : ℕ
deriving Repr, DecidableEq

def isLeap (y : ℕ) : Bool := (y % 4 == 0 && y % 100 != 0) || y % 400 == 0

def daysInMonth (y m : ℕ) : ℕ :=
  if m = 2 then (if isLeap y then 29 else 28)
  else if m = 4 ∨ m = 6 ∨ m = 9 ∨ m = 11 then 30
  else 31

def nextDay (d : Date) : Date :=
  if d.day < daysInMonth d.year d.month then ⟨d.year, d.month, d.day + 1⟩
  else if d.month < 12 then ⟨d.year, d.month + 1, 1⟩
  else ⟨d.year + 1, 1, 1⟩

def dateRangeAux : ℕ → Date → Date → List Date
| 0, _, _ => []
| fuel + 1, cur, stp => if cur = stp then [cur] else cur :: dateRangeAux fuel (nextDay cur) stp

/-- Model of `pd.date_range(start, end, freq='D')`, both endpoints included;
the fuel bound 1000 is ample for the fixed 670-day range used by the code. -/
def dateRange (start stp : Date) : List Date := dateRangeAux 1000 start stp

/-- Day of year, as `pandas` `date.dayofyear`. -/
def dayOfYear (d : Date) : ℕ :=
  ((List.range (d.month - 1)).map (fun k => daysInMonth d.year (k + 1))).sum + d.day

/-- One row of the synthetic sales table. -/
structure SaleRow where
  date : Date
  item_name : String
  quantity_sold : ℤ
  price : ℚ
deriving Repr, DecidableEq

/-- One (date, item) row: a Poisson base, the sinusoidal seasonal factor, a
Gaussian jitter, truncation by `int()` and the `max(0, .)` floor, then an
independent uniform price; the pseudo-random state threads through the draws
in program order. -/
def genRow (lib : RandomLib) (d : Date) (item : String) (s : ℕ) : SaleRow × ℕ :=
  let base := lib.poisson10 s
  let jit := lib.normalJitter base.2
  let sales := max 0 (truncQ ((base.1 : ℚ) * lib.sinFactor (dayOfYear d) * (1 + jit.1)))
  let pr := lib.priceUniform jit.2
  ({ date := d, item_name := item, quantity_sold := sales, price := pr.1 }, pr.2)

def genItems (lib : RandomLib) (d : Date) : List String → ℕ → List SaleRow × ℕ
| [], s => ([], s)
| it :: its, s =>
  let r := genRow lib d it s
  let rs := genItems lib d its r.2
  (r.1 :: rs.1, rs.2)

def genAll (lib : RandomLib) : List Date → List String → ℕ → List SaleRow × ℕ
| [], _, s => ([], s)
| d :: ds, items, s =>
  let rs1 := genItems lib d items s
  let rs2 := genAll lib ds items rs1.2
  (rs1.1 ++ rs2.1, rs2.2)

def salesItems : List String := ["item_a", "item_b", "item_c", "item_d", "item_e"]

def salesStart : Date := ⟨2023, 1, 1⟩

def salesEnd : Date := ⟨2024, 10, 31⟩

/-- Model of `_get_sales_data(company_id)`: seed the pseudo-random source
with the company identifier — discarding the incoming global state `s0` —
then generate one row per (date, item) pair over the fixed range. -/
def get_sales_data (lib : RandomLib) (company_id : ℤ) (s0 : ℕ) :
    List SaleRow × ℕ :=
  let s := lib.seed company_id
  genAll lib (dateRange salesStart salesEnd) salesItems s

/-- Step 1 of the allocator applied to the fallback catalog (with budget
fields present); this is a closed value. -/
def step1Fallback : List ItemForecast := (setBudgetFields (fallbackBase true)).getD []

def sampleName : String := "sample_item"

/-- A forecast whose 90-day demand is zero, as the allocator may receive. -/
def zeroDemandItem : ItemForecast :=
  { item_name := sampleName,
    predicted_demand_30d := 0,
    predicted_demand_60d := 0,
    predicted_demand_90d := 0,
    avg_daily_demand := 0,
    confidence := 1 / 2,
    reason := fallbackReason }

/-- A monotone forecast whose 90-day demand is only slightly above its
60-day demand, exposing the summer seasonal multiplier's ordering break:
`int(105 * 0.9) = 94 < 100`. -/
def summerItem : ItemForecast :=
  { item_name := sampleName,
    predicted_demand_30d := 100,
    predicted_demand_60d := 100,
    predicted_demand_90d := 105,
    avg_daily_demand := 10 / 3,
    confidence := 1 / 2,
    reason := fallbackReason }

/-- Demand monotonicity invariant claimed by the specification. -/
def demandOk (p : ItemForecast) : Prop :=
  0 ≤ p.predicted_demand_30d ∧ p.predicted_demand_30d ≤ p.predicted_demand_60d ∧
  p.predicted_demand_60d ≤ p.predicted_demand_90d

instance (p : ItemForecast) : Decidable (demandOk p) := by
  unfold demandOk
  infer_instance

/-- Nonnegativity of the three demand horizons. -/
def demandNonneg (p : ItemForecast) : Prop :=
  0 ≤ p.predicted_demand_30d ∧ 0 ≤ p.predicted_demand_60d ∧ 0 ≤ p.predicted_demand_90d

instance (p : ItemForecast) : Decidable (demandNonneg p) := by
  unfold demandNonneg
  infer_instance

/-! General lemmas about the embedded operations. -/

/-- Truncation toward zero is nonnegative on nonnegative input. -/
lemma truncQ_nonneg {q : ℚ} (h : 0 ≤ q) : 0 ≤ truncQ q := by
  unfold truncQ
  rw [if_neg (not_lt.mpr h)]
  exact Int.floor_nonneg.mpr h

/-- Membership in a descending insertion. -/
lemma mem_insertDesc {α : Type} (key : α → ℚ) (a x : α) :
    ∀ l : List α, x ∈ insertDesc key a l ↔ x = a ∨ x ∈ l := by
  intro l
  induction l with
  | nil => simp [insertDesc]
  | cons b bs ih =>
    simp only [insertDesc]
    split
    · simp [List.mem_cons]
    · simp only [List.mem_cons, ih]
      tauto

lemma mem_foldl_insertDesc {α : Type} (key : α → ℚ) (x : α) :
    ∀ (l acc : List α),
      x ∈ l.foldl (fun acc y => insertDesc key y acc) acc ↔ x ∈ acc ∨ x ∈ l := by
  intro l
  induction l with
  | nil => simp
  | cons b bs ih =>
    intro acc
    simp only [List.foldl_cons, ih, mem_insertDesc, List.mem_cons]
    tauto

/-- The stable sort is a permutation as far as membership goes. -/
lemma mem_sortDesc {α : Type} (key : α → ℚ) (x : α) (l : List α) :
    x ∈ sortDesc key l ↔ x ∈ l := by
  simp [sortDesc, mem_foldl_insertDesc]

lemma insertDesc_const {α : Type} (key : α → ℚ) (c : ℚ) (a : α) :
    ∀ l : List α, (∀ y ∈ l, key y = c) → key a = c → insertDesc key a l = l ++ [a] := by
  intro l
  induction l with
  | nil => intro _ _; rfl
  | cons b bs ih =>
    intro hl ha
    simp only [insertDesc]
    rw [if_neg, ih (fun y hy => hl y (List.mem_cons_of_mem _ hy)) ha]
    · simp
    · rw [hl b (List.mem_cons_self _ _), ha]
      exact lt_irrefl c

lemma foldl_insertDesc_const {α : Type} (key : α → ℚ) (c : ℚ) :
    ∀ (l acc : List α), (∀ y ∈ l, key y = c) → (∀ y ∈ acc, key y = c) →
      l.foldl (fun acc y => insertDesc key y acc) acc = acc ++ l := by
  intro l
  induction l with
  | nil => intro acc _ _; simp
  | cons b bs ih =>
    intro acc hl hacc
    simp only [List.foldl_cons]
    rw [insertDesc_const key c b acc hacc (hl b (List.mem_cons_self _ _)),
        ih (acc ++ [b])
          (fun y hy => hl y (List.mem_cons_of_mem _ hy))
          (fun y hy => by
            rcases List.mem_append.mp hy with h | h
            · exact hacc y h
            · rw [List.mem_singleton.mp h]
              exact hl b (List.mem_cons_self _ _))]
    simp

/-- When every element has the same key, the stable sort is the identity:
equal keys keep their original relative order. -/
lemma sortDesc_const {α : Type} (key : α → ℚ) (c : ℚ) (l : List α)
    (hl : ∀ y ∈ l, key y = c) : sortDesc key l = l := by
  have h := foldl_insertDesc_const key c l [] hl (by simp)
  simpa [sortDesc] using h

/-- Characterization of a successful per-item budget-field computation. -/
lemma budgetFields_eq_some {p q : ItemForecast} (h : budgetFields p = some q) :
    p.predicted_demand_90d ≠ 0 ∧
    q.investment_required = some ((p.predicted_demand_90d : ℚ) * 100) ∧
    q.roi_percentage = some 30 ∧
    q.expected_profit = some ((p.predicted_demand_90d : ℚ) * 100 * (3 / 10)) ∧
    q.item_name = p.item_name ∧
    q.predicted_demand_30d = p.predicted_demand_30d ∧
    q.predicted_demand_60d = p.predicted_demand_60d ∧
    q.predicted_demand_90d = p.predicted_demand_90d ∧
    q.confidence = p.confidence := by
  by_cases hz : ((p.predicted_demand_90d : ℚ) * 100) = 0
  · exfalso
    simp only [budgetFields] at h
    rw [if_pos hz] at h
    exact Option.noConfusion h
  · simp only [budgetFields] at h
    rw [if_neg hz] at h
    have hq := (Option.some.inj h).symm
    subst hq
    have hd : p.predicted_demand_90d ≠ 0 := by
      intro h0
      apply hz
      rw [h0]
      norm_num
    refine ⟨hd, rfl, ?_, rfl, rfl, rfl, rfl, rfl, rfl⟩
    have : (p.predicted_demand_90d : ℚ) * 100 * (3 / 10) / ((p.predicted_demand_90d : ℚ) * 100) * 100 = 30 := by
      field_simp
      ring
    rw [this]

/-- Every element of a successful step-1 output comes from one input
forecast. -/
lemma setBudgetFields_mem :
    ∀ {l l' : List ItemForecast}, setBudgetFields l = some l' →
      ∀ q ∈ l', ∃ p ∈ l, budgetFields p = some q := by
  intro l
  induction l with
  | nil =>
    intro l' h q hq
    simp only [setBudgetFields] at h
    rw [← Option.some.inj h] at hq
    simp at hq
  | cons p ps ih =>
    intro l' h q hq
    simp only [setBudgetFields, Option.bind_eq_bind] at h
    rcases hf : budgetFields p with _ | q0
    · rw [hf] at h
      exact Option.noConfusion h
    · rw [hf] at h
      rcases hs : setBudgetFields ps with _ | qs
      · rw [hs] at h
        exact Option.noConfusion h
      · rw [hs] at h
        simp only [Option.some_bind] at h
        rw [← Option.some.inj h] at hq
        rcases List.mem_cons.mp hq with rfl | hq2
        · exact ⟨p, List.mem_cons_self _ _, hf⟩
        · rcases ih hs q hq2 with ⟨p1, hp1, hb1⟩
          exact ⟨p1, List.mem_cons_of_mem _ hp1, hb1⟩

@[simp]
lemma sumInv_nil : sumInv [] = 0 := rfl

@[simp]
lemma sumInv_cons (p : ItemForecast) (l : List ItemForecast) :
    sumInv (p :: l) = invOf p + sumInv l := by
  simp [sumInv]

@[simp]
lemma sumInv_append (l₁ l₂ : List ItemForecast) :
    sumInv (l₁ ++ l₂) = sumInv l₁ + sumInv l₂ := by
  simp [sumInv]

@[simp]
lemma invOf_clipToBudget (p : ItemForecast) (r : ℚ) :
    invOf (clipToBudget p r) = r := rfl

/-- Once the budget is exhausted, the packing loop accepts nothing more. -/
lemma allocLoop_nil_of_le (budget : ℚ) :
    ∀ (l : List ItemForecast) (total : ℚ), (∀ p ∈ l, 0 < invOf p) →
      budget ≤ total → allocLoop budget total l = [] := by
  intro l
  induction l with
  | nil => intro total _ _; rfl
  | cons p rest ih =>
    intro total hpos h
    have hp : 0 < invOf p := hpos p (List.mem_cons_self _ _)
    simp only [allocLoop]
    rw [if_neg (by linarith), if_neg (not_lt.mpr h)]
    exact ih total (fun q hq => hpos q (List.mem_cons_of_mem _ hq)) h

/-- Shape of the packing loop's output: the accepted items are an initial
segment of the (sorted) input, optionally followed by a single partial copy
of the very next item; in the partial case its investment is exactly the
remaining budget, which is at least 1000. -/
lemma allocLoop_structure (budget : ℚ) :
    ∀ (l : List ItemForecast) (total : ℚ), (∀ p ∈ l, 0 < invOf p) →
      total ≤ budget →
      ∃ k, k ≤ l.length ∧
        ((allocLoop budget total l = l.take k ∧ total + sumInv (l.take k) ≤ budget) ∨
         (∃ p, l.get? k = some p ∧
            allocLoop budget total l =
              l.take k ++ [clipToBudget p (budget - (total + sumInv (l.take k)))] ∧
            1000 ≤ budget - (total + sumInv (l.take k)))) := by
  intro l
  induction l with
  | nil =>
    intro total _ htb
    exact ⟨0, Nat.le_refl 0, Or.inl ⟨rfl, by simpa using htb⟩⟩
  | cons p rest ih =>
    intro total hpos htb
    by_cases h1 : total + invOf p ≤ budget
    · rcases ih (total + invOf p) (fun q hq => hpos q (List.mem_cons_of_mem _ hq)) h1 with
        ⟨k, hk, hcase⟩
      refine ⟨k + 1, by simpa using Nat.succ_le_succ hk, ?_⟩
      rcases hcase with ⟨heq, hle⟩ | ⟨q, hget, heq, hrem⟩
      · left
        constructor
        · simp only [allocLoop]
          rw [if_pos h1, heq]
          rfl
        · simp only [List.take_succ_cons, sumInv_cons]
          linarith
      · right
        refine ⟨q, by simpa using hget, ?_, ?_⟩
        · simp only [allocLoop]
          rw [if_pos h1, heq]
          simp only [List.take_succ_cons, sumInv_cons, List.cons_append]
          have : total + (invOf p + sumInv (rest.take k)) = total + invOf p + sumInv (rest.take k) := by
            ring
          rw [this]
        · simp only [List.take_succ_cons, sumInv_cons]
          have : total + (invOf p + sumInv (rest.take k)) = total + invOf p + sumInv (rest.take k) := by
            ring
          rw [this]
          exact hrem
    · by_cases h2 : total < budget
      · by_cases h3 : 1000 ≤ budget - total
        · refine ⟨0, Nat.zero_le _, Or.inr ⟨p, rfl, ?_, ?_⟩⟩
          · simp only [allocLoop]
            rw [if_neg h1, if_pos h2, if_pos h3]
            simp
          · simpa using h3
        · refine ⟨0, Nat.zero_le _, Or.inl ⟨?_, ?_⟩⟩
          · simp only [allocLoop]
            rw [if_neg h1, if_pos h2, if_neg h3]
            rfl
          · simpa using h2.le
      · refine ⟨0, Nat.zero_le _, Or.inl ⟨?_, ?_⟩⟩
        · simp only [allocLoop]
          rw [if_neg h1, if_neg h2]
          exact allocLoop_nil_of_le budget rest total
            (fun q hq => hpos q (List.mem_cons_of_mem _ hq)) (not_lt.mp h2)
        · simpa using htb

/-- Every output item of the packing loop is an input item or a partial copy
of an input item. -/
lemma mem_allocLoop (budget : ℚ) :
    ∀ (l : List ItemForecast) (total : ℚ) (q : ItemForecast),
      q ∈ allocLoop budget total l →
      ∃ p ∈ l, q = p ∨ ∃ r, q = clipToBudget p r := by
  intro l
  induction l with
  | nil => intro total q hq; simp [allocLoop] at hq
  | cons p rest ih =>
    intro total q hq
    simp only [allocLoop] at hq
    split at hq
    · rcases List.mem_cons.mp hq with rfl | hq2
      · exact ⟨q, List.mem_cons_self _ _, Or.inl rfl⟩
      · rcases ih _ q hq2 with ⟨p1, hp1, hform⟩
        exact ⟨p1, List.mem_cons_of_mem _ hp1, hform⟩
    · split at hq
      · split at hq
        · rw [List.mem_singleton.mp hq]
          exact ⟨p, List.mem_cons_self _ _, Or.inr ⟨budget - total, rfl⟩⟩
        · simp at hq
      · rcases ih _ q hq with ⟨p1, hp1, hform⟩
        exact ⟨p1, List.mem_cons_of_mem _ hp1, hform⟩

lemma genItems_length (lib : RandomLib) (d : Date) :
    ∀ (its : List String) (s : ℕ), (genItems lib d its s).1.length = its.length := by
  intro its
  induction its with
  | nil => intro s; rfl
  | cons it rest ih =>
    intro s
    simp only [genItems, List.length_cons]
    rw [ih]

lemma genAll_length (lib : RandomLib) :
    ∀ (ds : List Date) (items : List String) (s : ℕ),
      (genAll lib ds items s).1.length = ds.length * items.length := by
  intro ds
  induction ds with
  | nil => intro items s; simp [genAll]
  | cons d rest ih =>
    intro items s
    simp only [genAll, List.length_append, List.length_cons]
    rw [genItems_length, ih]
    ring

lemma dateRange_length_eq : (dateRange salesStart salesEnd).length = 670 := by decide

lemma setBudgetFields_fallback : setBudgetFields (fallbackBase true) = some step1Fallback := by
  decide

lemma fallback_prediction_isSome (b : Option ℚ) (d : ℕ) :
    (fallback_prediction b d).isSome = true := by
  unfold fallback_prediction
  rcases htr : truthy b with _ | _
  · simp [htr]
  · simp only [htr, if_true]
    rw [apply_budget_constraints, setBudgetFields_fallback]
    rfl

/-- C7: the public predict operation never propagates an exception: the whole
body runs under a broad `try`, the handler returns the fallback output, and
the fallback itself cannot raise (its items have positive demand, so the
allocator's division is safe); so every call returns a well-formed list. -/
theorem predict_never_fails (mlItems : List ItemForecast) (salesLen month : ℕ)
    (budget : Option ℚ) (days_ahead : ℕ) :
    (predict mlItems salesLen month budget days_ahead).isSome = true := by
  unfold predict
  rcases h : predictBody mlItems salesLen month budget days_ahead with _ | l
  · exact fallback_prediction_isSome budget days_ahead
  · rfl

/-- C4: the synthetic sales table is a deterministic function of the company
identifier: the generator seeds the pseudo-random source with the identifier
first, so its output does not depend on the incoming generator state; in
particular two consecutive invocations with the same identifier (the second
starting from the state the first left behind) return identical tables. -/
theorem sales_data_deterministic (lib : RandomLib) (company_id : ℤ) (s1 s2 : ℕ) :
    (get_sales_data lib company_id s1).1 = (get_sales_data lib company_id s2).1 ∧
    (get_sales_data lib company_id ((get_sales_data lib company_id s1).2)).1 =
      (get_sales_data lib company_id s1).1 :=
  ⟨rfl, rfl⟩

/-- C9: for every company identifier (and any pseudo-random draws), the
generator returns one row per item per day over 2023-01-01 .. 2024-10-31:
670 days x 5 items = 3350 rows, so the `len(sales_data) < 10` fallback branch
of `predict` can never be taken via the row count. -/
theorem sales_table_full_range (lib : RandomLib) (company_id : ℤ) (s0 : ℕ) :
    (get_sales_data lib company_id s0).1.length =
      (dateRange salesStart salesEnd).length * salesItems.length ∧
    (get_sales_data lib company_id s0).1.length = 3350 ∧
    ¬ ((get_sales_data lib company_id s0).1.length < 10) := by
  have h : (get_sales_data lib company_id s0).1.length = 3350 := by
    unfold get_sales_data
    rw [genAll_length, dateRange_length_eq]
    rfl
  refine ⟨?_, h, ?_⟩
  · unfold get_sales_data
    rw [genAll_length]
  · rw [h]
    norm_num

/-- C10: the fallback prediction depends only on the budget: the
`days_ahead` parameter is never read (and the company identifier is not even
passed in), so any two invocations with the same budget agree. -/
theorem fallback_independent_of_horizon (budget : Option ℚ) (d1 d2 : ℕ) :
    fallback_prediction budget d1 = fallback_prediction budget d2 :=
  rfl

/-- C5: confidence ranges.  On the ML path `max(0.3, 1 - mae/mean)` lies in
`[0.3, 1]` whenever the mean absolute error is nonnegative and the test mean
is positive; the fallback ramp `max(0.4, 0.6 - 0.1*i)` lies in `[0.4, 0.6]`
for every index, and consequently every forecast returned by the fallback
path (including ones re-processed by the budget allocator, which copies the
confidence) has confidence in `[0.4, 0.6]`. -/
theorem confidence_ranges :
    (∀ mae meanTest : ℚ, 0 ≤ mae → 0 < meanTest →
      3 / 10 ≤ mlConfidence mae meanTest ∧ mlConfidence mae meanTest ≤ 1) ∧
    (∀ i : ℕ, 4 / 10 ≤ fallbackConfidence i ∧ fallbackConfidence i ≤ 6 / 10) ∧
    (∀ (b : Option ℚ) (d : ℕ) (out : List ItemForecast),
      fallback_prediction b d = some out →
      ∀ p ∈ out, 4 / 10 ≤ p.confidence ∧ p.confidence ≤ 6 / 10) := by
  refine ⟨?_, ?_, ?_⟩
  · intro mae meanTest hmae hmean
    constructor
    · exact le_max_left _ _
    · apply max_le
      · norm_num
      · have h := div_nonneg hmae hmean.le
        linarith
  · intro i
    constructor
    · exact le_max_left _ _
    · apply max_le
      · norm_num
      · have h : 0 ≤ (i : ℚ) * (1 / 10) := by positivity
        linarith
  · intro b d out h p hp
    rcases htr : truthy b with _ | _
    · simp only [fallback_prediction, htr, Bool.false_eq_true, if_false] at h
      have hout : out = fallbackBase false := (Option.some.inj h).symm
      rw [hout] at hp
      have hall : ∀ q ∈ fallbackBase false, 4 / 10 ≤ q.confidence ∧ q.confidence ≤ 6 / 10 := by
        decide
      exact hall p hp
    · simp only [fallback_prediction, htr, if_true] at h
      rw [apply_budget_constraints, setBudgetFields_fallback] at h
      simp only [Option.some_bind] at h
      have hout : out = allocLoop (b.getD 0) 0 (sortDesc roiKey step1Fallback) :=
        (Option.some.inj h).symm
      rw [hout] at hp
      obtain ⟨p1, hp1, hform⟩ := mem_allocLoop _ _ _ p hp
      have hp1m : p1 ∈ step1Fallback := (mem_sortDesc _ _ _).mp hp1
      have hall : ∀ q ∈ step1Fallback, 4 / 10 ≤ q.confidence ∧ q.confidence ≤ 6 / 10 := by
        decide
      rcases hform with heq | ⟨r, heq⟩
      · rw [heq]
        exact hall p1 hp1m
      · rw [heq]
        exact hall p1 hp1m

/-- Witness for the confidence ranges at concrete inputs. -/
theorem confidence_ranges_witness :
    (3 / 10 ≤ mlConfidence 2 4 ∧ mlConfidence 2 4 ≤ 1) ∧
    (4 / 10 ≤ fallbackConfidence 3 ∧ fallbackConfidence 3 ≤ 6 / 10) ∧
    (∀ p ∈ (fallback_prediction (some 16000) 90).getD [],
      4 / 10 ≤ p.confidence ∧ p.confidence ≤ 6 / 10) :=
  ⟨confidence_ranges.1 2 4 (by norm_num) (by norm_num),
   confidence_ranges.2.1 3,
   confidence_ranges.2.2 (some 16000) 90 ((fallback_prediction (some 16000) 90).getD [])
     (by decide)⟩

/-- C6 counterexample: on an item with `predicted_demand_90d = 0`, Step 1 of
the budget allocator does not succeed: `roi_percentage` divides by
`investment_required = 0`, raising `ZeroDivisionError` (modelled as `none`),
which aborts the whole allocator call. -/
theorem budget_fields_zero_cex :
    zeroDemandItem.predicted_demand_90d = 0 ∧
    budgetFields zeroDemandItem = none ∧
    setBudgetFields [zeroDemandItem] = none ∧
    apply_budget_constraints [zeroDemandItem] 100000 = none := by
  decide

/-- C6 amended: for every item whose `predicted_demand_90d` is nonzero,
Step 1 succeeds and yields `investment_required = predicted_demand_90d*100`,
`expected_profit = investment_required * 0.3` and `roi_percentage = 30`;
when `predicted_demand_90d = 0` the computation raises instead. -/
theorem budget_fields_amended (p : ItemForecast) (h : p.predicted_demand_90d ≠ 0) :
    ∃ q, budgetFields p = some q ∧
      q.investment_required = some ((p.predicted_demand_90d : ℚ) * 100) ∧
      q.expected_profit = some ((p.predicted_demand_90d : ℚ) * 100 * (3 / 10)) ∧
      q.roi_percentage = some 30 := by
  have hz : ((p.predicted_demand_90d : ℚ) * 100) ≠ 0 := by
    simp [h]
  rcases hq : budgetFields p with _ | q
  · exfalso
    simp only [budgetFields] at hq
    rw [if_neg hz] at hq
    exact Option.noConfusion hq
  · rcases budgetFields_eq_some hq with ⟨_, hinv, hroi, hprof, _⟩
    exact ⟨q, rfl, hinv, hprof, hroi⟩

/-- Witness for the amended Step-1 computation at a concrete item. -/
theorem budget_fields_amended_witness :
    (fallbackItem false 0 sampleName).predicted_demand_90d ≠ 0 ∧
    ∃ q, budgetFields (fallbackItem false 0 sampleName) = some q ∧
      q.investment_required =
        some (((fallbackItem false 0 sampleName).predicted_demand_90d : ℚ) * 100) ∧
      q.expected_profit =
        some (((fallbackItem false 0 sampleName).predicted_demand_90d : ℚ) * 100 * (3 / 10)) ∧
      q.roi_percentage = some 30 :=
  ⟨by decide, budget_fields_amended (fallbackItem false 0 sampleName) (by decide)⟩

/-- C8 counterexample: in October, with an empty predictions list, the
composer returns the empty list, so no `"seasonal_prep"` recommendation is
emitted even though the month is in the holiday window. -/
theorem seasonal_prep_cex :
    generate_recommendations 10 [] (some 5000) = [] ∧
    ¬ ∃ r ∈ generate_recommendations 10 [] (some 5000), r.rtype = "seasonal_prep" := by
  constructor
  · rfl
  · rintro ⟨r, hr, _⟩
    rw [show generate_recommendations 10 [] (some 5000) = [] from rfl] at hr
    exact absurd hr (List.not_mem_nil r)

/-- C8 amended: whenever the wall-clock month is October, November or
December and the predictions list is nonempty, the composer emits a
`"seasonal_prep"` recommendation, for every budget value. -/
theorem seasonal_prep_amended (month : ℕ) (preds : List ItemForecast)
    (budget : Option ℚ)
    (hm : month = 10 ∨ month = 11 ∨ month = 12) (hp : preds ≠ []) :
    ∃ r ∈ generate_recommendations month preds budget, r.rtype = "seasonal_prep" := by
  unfold generate_recommendations
  rw [if_neg hp]
  dsimp only
  refine ⟨{ rtype := "seasonal_prep",
            title := "Holiday Season Preparation",
            description := "Increase stock by 30-40% for holiday demand",
            action := some seasonalAction }, ?_, rfl⟩
  apply List.mem_append_right
  rw [if_pos hm]
  exact List.mem_singleton_self _

/-- Witness for the amended seasonal recommendation at a concrete call. -/
theorem seasonal_prep_amended_witness :
    ∃ r ∈ generate_recommendations 10 [zeroDemandItem] none, r.rtype = "seasonal_prep" :=
  seasonal_prep_amended 10 [zeroDemandItem] none (Or.inl rfl) (by decide)

/-- C3 counterexample: with a large budget, the allocator's output on the
fallback items carries `roi_percentage = 30` and `investment_required =
predicted_demand_90d * 100` (15000 for the first item), not the fallback's
own 150-cost / 25%-margin values (which would give 7500 and 25): Step 1 of
the allocator overwrites them. -/
theorem fallback_constants_cex :
    ((fallback_prediction (some 1000000) 90).getD []).map (fun p => p.roi_percentage) =
      [some 30, some 30, some 30, some 30, some 30] ∧
    ((fallback_prediction (some 1000000) 90).getD []).map (fun p => p.investment_required) =
      [some 15000, some 22500, some 30000, some 37500, some 45000] ∧
    (fallback_prediction (some 1000000) 90).isSome = true ∧
    ¬ ((50 : ℚ) * 150 = 15000) ∧ ¬ ((30 : ℚ) = 25) := by
  decide

/-- C3 amended: the fallback does set the 150-cost / 25%-margin fields before
calling the allocator, but the allocator's Step 1 overwrites them with the
100-cost / 30%-margin computation, so every item the caller receives on the
budgeted fallback path has `roi_percentage = 30` and `expected_profit =
0.3 * investment_required`; the 150 / 25 constants never survive to the
output. -/
theorem fallback_constants_amended (b : ℚ) (d : ℕ) (out : List ItemForecast)
    (hb : b ≠ 0) (h : fallback_prediction (some b) d = some out) :
    ∀ p ∈ out, p.roi_percentage = some 30 ∧
      p.expected_profit = some (invOf p * (3 / 10)) := by
  have htr : truthy (some b) = true := by
    simp [truthy, hb]
  intro p hp
  simp only [fallback_prediction, htr, if_true] at h
  rw [apply_budget_constraints, setBudgetFields_fallback] at h
  simp only [Option.some_bind] at h
  have hout : out = allocLoop ((some b).getD 0) 0 (sortDesc roiKey step1Fallback) :=
    (Option.some.inj h).symm
  rw [hout] at hp
  obtain ⟨p1, hp1, hform⟩ := mem_allocLoop _ _ _ p hp
  have hp1m : p1 ∈ step1Fallback := (mem_sortDesc _ _ _).mp hp1
  have hall : ∀ q ∈ step1Fallback, q.roi_percentage = some 30 ∧
      q.expected_profit = some (invOf q * (3 / 10)) := by
    decide
  rcases hform with heq | ⟨r, heq⟩
  · rw [heq]
    exact hall p1 hp1m
  · rw [heq]
    exact ⟨(hall p1 hp1m).1, rfl⟩

/-- Witness for the amended fallback-path constants: the first item returned
for a budget of 1000000. -/
theorem fallback_constants_amended_witness :
    (((fallback_prediction (some 1000000) 90).getD []).getD 0 zeroDemandItem).roi_percentage
        = some 30 ∧
    (((fallback_prediction (some 1000000) 90).getD []).getD 0 zeroDemandItem).expected_profit
        = some
            (invOf (((fallback_prediction (some 1000000) 90).getD []).getD 0 zeroDemandItem) *
              (3 / 10)) :=
  fallback_constants_amended 1000000 90
    ((fallback_prediction (some 1000000) 90).getD []) (by norm_num) (by decide)
    (((fallback_prediction (some 1000000) 90).getD []).getD 0 zeroDemandItem)
    (by decide)

lemma roiKey_step1 {preds l1 : List ItemForecast} (hs : setBudgetFields preds = some l1) :
    ∀ y ∈ l1, roiKey y = 30 := by
  intro y hy
  obtain ⟨p, hp, hbf⟩ := setBudgetFields_mem hs y hy
  obtain ⟨_, _, hroi, _⟩ := budgetFields_eq_some hbf
  rw [roiKey, hroi]
  rfl

/-- After Step 1 all ROI keys are 30, so the (stable) sort is the identity. -/
lemma sortDesc_step1_eq {preds l1 : List ItemForecast}
    (hs : setBudgetFields preds = some l1) : sortDesc roiKey l1 = l1 :=
  sortDesc_const roiKey 30 l1 (roiKey_step1 hs)

lemma invOf_pos_of_step1 {preds l1 : List ItemForecast}
    (hd : ∀ p ∈ preds, 0 ≤ p.predicted_demand_90d)
    (hs : setBudgetFields preds = some l1) :
    ∀ q ∈ l1, 0 < invOf q := by
  intro q hq
  obtain ⟨p, hp, hbf⟩ := setBudgetFields_mem hs q hq
  obtain ⟨hne, hinv, _⟩ := budgetFields_eq_some hbf
  have h0 : 0 < p.predicted_demand_90d := lt_of_le_of_ne (hd p hp) (Ne.symm hne)
  have h0q : (0 : ℚ) < (p.predicted_demand_90d : ℚ) := by exact_mod_cast h0
  rw [invOf, hinv]
  simp only [Option.getD_some]
  exact mul_pos h0q (by norm_num)

/-- C1 counterexample: the claim quantifies over every budget, but a
negative budget refutes it: a negative float is truthy in `if budget:` (so
`predict` passes it to `_apply_budget_constraints`), every item is then
skipped (neither `total + inv <= budget` nor `total < budget` holds at
`total = 0`), and the returned empty list has total investment 0, which
exceeds the negative budget. -/
theorem budget_allocation_cex :
    truthy (some (-5000)) = true ∧
    apply_budget_constraints (fallbackBase true) (-5000) = some [] ∧
    ¬ (sumInv ((apply_budget_constraints (fallbackBase true) (-5000)).getD []) ≤ -5000) := by
  decide

/-- C1 amended: for nonnegative input demands and a nonnegative budget, a
successful allocator call returns a list whose total investment does not
exceed the budget; the output is an initial segment of the Step-1-processed
list (the sort is the identity there, every ROI key being 30), optionally
followed by exactly one partial item, namely the item immediately following
the last fully-accepted one, whose investment is exactly the remaining
budget, that remainder being at least 1000 (and then the total equals the
budget).  For a negative budget the allocator instead returns the empty
list, whose total investment 0 exceeds the budget. -/
theorem budget_allocation_spec (preds : List ItemForecast) (budget : ℚ)
    (out : List ItemForecast)
    (hd : ∀ p ∈ preds, 0 ≤ p.predicted_demand_90d)
    (hb : 0 ≤ budget)
    (h : apply_budget_constraints preds budget = some out) :
    sumInv out ≤ budget ∧
    ∃ l1 k, setBudgetFields preds = some l1 ∧ sortDesc roiKey l1 = l1 ∧ k ≤ l1.length ∧
      (out = l1.take k ∨
       ∃ p, l1.get? k = some p ∧
         out = l1.take k ++ [clipToBudget p (budget - sumInv (l1.take k))] ∧
         1000 ≤ budget - sumInv (l1.take k) ∧
         sumInv out = budget) := by
  rcases hs : setBudgetFields preds with _ | l1
  · rw [apply_budget_constraints, hs] at h
    simp only [Option.none_bind] at h
    exact Option.noConfusion h
  · rw [apply_budget_constraints, hs] at h
    simp only [Option.some_bind] at h
    have hsort : sortDesc roiKey l1 = l1 := sortDesc_step1_eq hs
    have hout : out = allocLoop budget 0 (sortDesc roiKey l1) := (Option.some.inj h).symm
    rw [hsort] at hout
    have hpos : ∀ q ∈ l1, 0 < invOf q := invOf_pos_of_step1 hd hs
    obtain ⟨k, hk, hcase⟩ := allocLoop_structure budget l1 0 hpos hb
    rcases hcase with ⟨heq, hle⟩ | ⟨p, hget, heq, hrem⟩
    · rw [zero_add] at hle
      refine ⟨?_, l1, k, by simp [hs], hsort, hk, Or.inl ?_⟩
      · rw [hout, heq]
        exact hle
      · rw [hout, heq]
    · rw [zero_add] at heq hrem
      have hsum : sumInv (allocLoop budget 0 l1) = budget := by
        rw [heq, sumInv_append, sumInv_cons, sumInv_nil, invOf_clipToBudget]
        ring
      refine ⟨?_, l1, k, by simp [hs], hsort, hk, Or.inr ⟨p, hget, ?_, hrem, ?_⟩⟩
      · rw [hout, hsum]
      · rw [hout, heq]
      · rw [hout, hsum]

/-- Witness for the allocator postcondition: the fallback catalog against a
budget of 16000 (one full item, one partial item). -/
theorem budget_allocation_spec_witness :
    sumInv ((apply_budget_constraints (fallbackBase true) 16000).getD []) ≤ 16000 ∧
    ∃ l1 k, setBudgetFields (fallbackBase true) = some l1 ∧ sortDesc roiKey l1 = l1 ∧
      k ≤ l1.length ∧
      ((apply_budget_constraints (fallbackBase true) 16000).getD [] = l1.take k ∨
       ∃ p, l1.get? k = some p ∧
         (apply_budget_constraints (fallbackBase true) 16000).getD [] =
           l1.take k ++ [clipToBudget p (16000 - sumInv (l1.take k))] ∧
         1000 ≤ 16000 - sumInv (l1.take k) ∧
         sumInv ((apply_budget_constraints (fallbackBase true) 16000).getD []) = 16000) :=
  budget_allocation_spec (fallbackBase true) 16000
    ((apply_budget_constraints (fallbackBase true) 16000).getD [])
    (by decide) (by norm_num) (by decide)

lemma demandOk_nonneg {p : ItemForecast} (h : demandOk p) : demandNonneg p :=
  ⟨h.1, le_trans h.1 h.2.1, le_trans (le_trans h.1 h.2.1) h.2.2⟩

/-- C2 counterexample: with budget 16000 the budgeted fallback pipeline
returns a partial item whose recomputed 90-day demand (10) is strictly
smaller than its retained 60-day demand (150); and the summer seasonal
multiplier breaks the ordering on its own: a monotone item with demands
(100, 100, 105) is adjusted in June to `int(105 * 0.9) = 94 < 100`.  Both
refute `predicted_demand_60d ≤ predicted_demand_90d` for pipeline outputs. -/
theorem demand_monotonicity_cex :
    (fallback_prediction (some 16000) 90).isSome = true ∧
    ((fallback_prediction (some 16000) 90).getD []).any
      (fun p => decide (p.predicted_demand_90d < p.predicted_demand_60d)) = true ∧
    demandOk summerItem ∧
    (apply_seasonal_adjustments 6 [summerItem]).any
      (fun p => decide (p.predicted_demand_90d < p.predicted_demand_60d)) = true := by
  decide

/-- C2 amended: for inputs satisfying `0 ≤ 30d ≤ 60d ≤ 90d`:
the budget allocator returns items with nonnegative demands, and either
every output item keeps the full ordering, or the output ends in the single
partial item (whose 90-day demand is recomputed from the remaining budget)
and every item before it keeps the ordering; the seasonal adjuster keeps the
demands nonnegative and `30d ≤ 60d`, and preserves the full ordering in
every month except June, July and August (where `int(0.9 * 90d)` can drop
below the retained 60-day demand); the fallback generator's own items always
satisfy both invariants. -/
theorem demand_invariants_amended :
    (∀ (preds : List ItemForecast) (budget : ℚ) (out : List ItemForecast),
      (∀ p ∈ preds, demandOk p) →
      apply_budget_constraints preds budget = some out →
      (∀ p ∈ out, demandNonneg p) ∧
      ((∀ p ∈ out, demandOk p) ∨
       ∃ front q r, out = front ++ [clipToBudget q r] ∧ demandOk q ∧
         ∀ p ∈ front, demandOk p)) ∧
    (∀ (month : ℕ) (preds : List ItemForecast),
      (∀ p ∈ preds, demandOk p) →
      ∀ p ∈ apply_seasonal_adjustments month preds,
        demandNonneg p ∧
        p.predicted_demand_30d ≤ p.predicted_demand_60d ∧
        (¬ (month = 6 ∨ month = 7 ∨ month = 8) → demandOk p)) ∧
    (∀ hbud : Bool, ∀ p ∈ fallbackBase hbud, demandOk p ∧ demandNonneg p) := by
  refine ⟨?_, ?_, ?_⟩
  · intro preds budget out hok h
    rcases hs : setBudgetFields preds with _ | l1
    · rw [apply_budget_constraints, hs] at h
      simp only [Option.none_bind] at h
      exact Option.noConfusion h
    · rw [apply_budget_constraints, hs] at h
      have hsort : sortDesc roiKey l1 = l1 := sortDesc_step1_eq hs
      have hout : out = allocLoop budget 0 (sortDesc roiKey l1) := (Option.some.inj h).symm
      rw [hsort] at hout
      subst hout
      have hok1 : ∀ q ∈ l1, demandOk q := by
        intro q hq
        obtain ⟨p, hp, hbf⟩ := setBudgetFields_mem hs q hq
        obtain ⟨_, _, _, _, _, h30, h60, h90, _⟩ := budgetFields_eq_some hbf
        unfold demandOk at *
        rw [h30, h60, h90]
        exact hok p hp
      have hd : ∀ p ∈ preds, 0 ≤ p.predicted_demand_90d := by
        intro p hp
        obtain ⟨h1, h2, h3⟩ := hok p hp
        exact le_trans (le_trans h1 h2) h3
      have hpos : ∀ q ∈ l1, 0 < invOf q := invOf_pos_of_step1 hd hs
      by_cases hbpos : 0 ≤ budget
      · obtain ⟨k, hk, hcase⟩ := allocLoop_structure budget l1 0 hpos hbpos
        rcases hcase with ⟨heq, _⟩ | ⟨p, hget, heq, hrem⟩
        · rw [heq]
          constructor
          · intro q hq
            exact demandOk_nonneg (hok1 q (List.take_subset k l1 hq))
          · left
            intro q hq
            exact hok1 q (List.take_subset k l1 hq)
        · rw [heq]
          have hpm : p ∈ l1 := List.get?_mem hget
          constructor
          · intro q hq
            rcases List.mem_append.mp hq with hq1 | hq2
            · exact demandOk_nonneg (hok1 q (List.take_subset k l1 hq1))
            · rw [List.mem_singleton.mp hq2]
              obtain ⟨h1, h2, h3⟩ := hok1 p hpm
              refine ⟨h1, le_trans h1 h2, ?_⟩
              apply truncQ_nonneg
              have hr : (0 : ℚ) ≤ budget - (0 + sumInv (l1.take k)) :=
                le_trans (by norm_num) hrem
              exact div_nonneg hr (by norm_num)
          · right
            refine ⟨l1.take k, p, budget - (0 + sumInv (l1.take k)), rfl, hok1 p hpm, ?_⟩
            intro q hq
            exact hok1 q (List.take_subset k l1 hq)
      · have hnil : allocLoop budget 0 l1 = [] :=
          allocLoop_nil_of_le budget l1 0 hpos (by linarith [lt_of_not_le hbpos])
        rw [hnil]
        constructor
        · intro q hq
          exact absurd hq (List.not_mem_nil q)
        · left
          intro q hq
          exact absurd hq (List.not_mem_nil q)
  · intro month preds hok p hp
    simp only [apply_seasonal_adjustments, List.mem_map] at hp
    obtain ⟨q, hq, hfq⟩ := hp
    obtain ⟨h1, h2, h3⟩ := hok q hq
    have hq0 : (0 : ℤ) ≤ q.predicted_demand_90d := le_trans (le_trans h1 h2) h3
    have hq0Q : (0 : ℚ) ≤ (q.predicted_demand_90d : ℚ) := by exact_mod_cast hq0
    by_cases hm1 : month = 11 ∨ month = 12
    · rw [if_pos hm1] at hfq
      subst hfq
      have h90 : q.predicted_demand_90d ≤
          truncQ ((q.predicted_demand_90d : ℚ) * (13 / 10)) := by
        rw [truncQ, if_neg (not_lt.mpr (mul_nonneg hq0Q (by norm_num)))]
        apply Int.le_floor.mpr
        nlinarith
      exact ⟨⟨h1, le_trans h1 h2, le_trans hq0 h90⟩, h2,
        fun _ => ⟨h1, h2, le_trans h3 h90⟩⟩
    · rw [if_neg hm1] at hfq
      by_cases hm2 : month = 6 ∨ month = 7 ∨ month = 8
      · rw [if_pos hm2] at hfq
        subst hfq
        exact ⟨⟨h1, le_trans h1 h2, truncQ_nonneg (mul_nonneg hq0Q (by norm_num))⟩, h2,
          fun hc => absurd hm2 hc⟩
      · rw [if_neg hm2] at hfq
        subst hfq
        exact ⟨demandOk_nonneg ⟨h1, h2, h3⟩, h2, fun _ => ⟨h1, h2, h3⟩⟩
  · intro hbud p hp
    rcases hbud with _ | _ <;> revert p hp <;> decide

/-- Witness for the amended demand invariants: the fallback catalog against
a budget of 16000 (allocator output ending in a partial item), and the
December seasonal adjustment of a concrete monotone item. -/
theorem demand_invariants_amended_witness :
    ((∀ p ∈ (apply_budget_constraints (fallbackBase true) 16000).getD [], demandNonneg p) ∧
     ((∀ p ∈ (apply_budget_constraints (fallbackBase true) 16000).getD [], demandOk p) ∨
      ∃ front q r,
        (apply_budget_constraints (fallbackBase true) 16000).getD [] =
          front ++ [clipToBudget q r] ∧ demandOk q ∧ ∀ p ∈ front, demandOk p)) ∧
    (demandNonneg ((apply_seasonal_adjustments 12 [summerItem]).getD 0 zeroDemandItem) ∧
     ((apply_seasonal_adjustments 12 [summerItem]).getD 0 zeroDemandItem).predicted_demand_30d ≤
       ((apply_seasonal_adjustments 12 [summerItem]).getD 0 zeroDemandItem).predicted_demand_60d ∧
     (¬ ((12 : ℕ) = 6 ∨ (12 : ℕ) = 7 ∨ (12 : ℕ) = 8) →
       demandOk ((apply_seasonal_adjustments 12 [summerItem]).getD 0 zeroDemandItem))) :=
  ⟨demand_invariants_amended.1 (fallbackBase true) 16000
     ((apply_budget_constraints (fallbackBase true) 16000).getD [])
     (by decide) (by decide),
   demand_invariants_amended.2.1 12 [summerItem] (by decide)
     ((apply_seasonal_adjustments 12 [summerItem]).getD 0 zeroDemandItem) (by decide)⟩

end DemandPred
